import Mathlib

/-!
Verification of the fleet-orchestration script `aws.py` against its
natural-language specification.  The Python source is shallowly embedded:
pure helpers become Lean functions, provider and network effects become
explicit state passing plus event traces, and a machine double is
represented by its 64-bit IEEE-754 bit pattern (struct.pack and
struct.unpack are mutually inverse between a double and its bytes, so a
byte-level statement about the encoding is a statement about the bit
pattern).  Definitions come first, theorems after.
-/

namespace Cluster

/-! ## Definitions: invocation-id encoding (`_encode_float`, `_decode_float`) -/

/-- Bytes of an integer, least significant byte first.  This is the byte
sequence `struct.pack("d", value)` produces for the bit pattern of `value`
on the little-endian x86-64 hosts this script runs on (format code `d`
uses native byte order). -/
def packBytesLE : Nat → Nat → List Nat
  | 0, _ => []
  | k + 1, n => n % 256 :: packBytesLE k (n / 256)

/-- Modelled from the spec: the 8-byte encoding in big-endian byte order
(most significant byte first) that the specification says the invocation
id uses.  Kept only to compare against the encoding the source computes. -/
def packBytesBE : Nat → Nat → List Nat
  | 0, _ => []
  | k + 1, n => packBytesBE k (n / 256) ++ [n % 256]

/-- Uppercase hexadecimal digit, as produced by `base64.b16encode`. -/
def hexDigit (n : Nat) : Char :=
  if n < 10 then Char.ofNat (48 + n) else Char.ofNat (55 + n)

/-- Two hex characters of one byte, high digit first. -/
def byteToHex (b : Nat) : List Char :=
  [hexDigit (b / 16), hexDigit (b % 16)]

/-- Embedding of `base64.b16encode(ba).decode("ascii")`. -/
def b16encode (bs : List Nat) : String :=
  String.mk (List.flatten (bs.map byteToHex))

/-- Value of one hex character; `none` for a character `base64.b16decode`
rejects. -/
def hexVal (c : Char) : Option Nat :=
  if 48 ≤ c.toNat ∧ c.toNat ≤ 57 then some (c.toNat - 48)
  else if 65 ≤ c.toNat ∧ c.toNat ≤ 70 then some (c.toNat - 55)
  else none

/-- Decoding of a hex character list two characters at a time; `none` models
the `binascii.Error` raised on malformed input. -/
def b16decodeChars : List Char → Option (List Nat)
  | [] => some []
  | [_] => none
  | c1 :: c2 :: rest =>
    match hexVal c1, hexVal c2, b16decodeChars rest with
    | some hi, some lo, some bs => some ((16 * hi + lo) :: bs)
    | _, _, _ => none

/-- Embedding of `base64.b16decode`. -/
def b16decode (s : String) : Option (List Nat) :=
  b16decodeChars s.data

/-- Integer from its bytes, least significant first: the inverse direction
of `struct.unpack("d", ...)` at the bit-pattern level. -/
def unpackLE (bs : List Nat) : Nat :=
  bs.foldr (fun b acc => b + 256 * acc) 0

/-- Embedding of `_encode_float`: hex of the 8 bytes of the bit pattern of
the double, bytes in the native (little-endian) order of the host. -/
def encode_float (bits : Nat) : String :=
  b16encode (packBytesLE 8 bits)

/-- Embedding of `_decode_float`, at the bit-pattern level. -/
def decode_float (s : String) : Option Nat :=
  (b16decode s).map unpackLE

/-- Modelled from the spec: the encoder the specification describes, hex of
the 8 bytes in big-endian order. -/
def encode_float_spec_be (bits : Nat) : String :=
  b16encode (packBytesBE 8 bits)

/-- Byte-level (character-code lexicographic) strict order on filenames. -/
def lexLtChars : List Char → List Char → Bool
  | [], [] => false
  | [], _ :: _ => true
  | _ :: _, [] => false
  | a :: as, b :: bs =>
    if a.toNat < b.toNat then true
    else if b.toNat < a.toNat then false
    else lexLtChars as bs

/-- Byte-level filename order. -/
def filenameLt (s t : String) : Bool :=
  lexLtChars s.data t.data

/-- Filenames derived in `Task.run`: the invocation id
`_encode_float(time.time())` under the local task log directory. -/
def runLogFilenames (local_tasklogdir : String) (timestampBits : Nat) :
    String × String :=
  (local_tasklogdir ++ "/" ++ encode_float timestampBits ++ ".stdout",
   local_tasklogdir ++ "/" ++ encode_float timestampBits ++ ".stderr")

/-- Characters that may appear in an invocation id. -/
def isHexUpper (c : Char) : Bool :=
  (48 ≤ c.toNat && c.toNat ≤ 57) || (65 ≤ c.toNat && c.toNat ≤ 70)

/-! ## Definitions: provider model (`boto3` fleet state) -/

/-- AWS key name the script owns; it only touches instances with this key. -/
def KEY_NAME : String := "yaroslav"

/-- Machine image used for created instances. -/
def AMI : String := "ami-9ddb0fe5"

/-- Security group used for created instances. -/
def SECURITY_GROUP : String := "open"

/-- Default port of a task. -/
def DEFAULT_PORT : Nat := 3000

/-- One key/value tag of an instance. -/
structure Tag where
  key : String
  value : String
  deriving DecidableEq

/-- Provider-side view of one instance. -/
structure Instance where
  iid : Nat
  tags : List Tag
  key_name : String
  state_name : String
  instance_type : String
  deriving DecidableEq

/-- Values of the Name tags of an instance (`[tag["Value"] for tag in
i.tags if tag["Key"] == "Name"]`). -/
def nameTagValues (i : Instance) : List String :=
  (i.tags.filter (fun t => t.key == "Name")).map Tag.value

/-- Message printed for an instance whose name matches but whose key does
not. -/
def skipMsg (key_name : String) : String :=
  "name matches, but key name " ++ key_name ++ " does not match "
    ++ KEY_NAME ++ ", skipping"

/-- Loop body of `lookup_aws_instances` over the instances the provider
returns.  Collects the matching instances and the printed log lines;
`Except.error` models the failure of `assert len(names) <= 1`. -/
def lookupLoop (name : String) :
    List Instance → Except String (List Instance × List String)
  | [] => Except.ok ([], [])
  | i :: rest =>
    let names := nameTagValues i
    if names.length ≤ 1 then
      let inst_name := names.headD ""
      if inst_name = name then
        if i.key_name ≠ KEY_NAME then
          match lookupLoop name rest with
          | Except.ok (r, logLines) =>
            Except.ok (r, skipMsg i.key_name :: logLines)
          | Except.error e => Except.error e
        else
          match lookupLoop name rest with
          | Except.ok (r, logLines) => Except.ok (i :: r, logLines)
          | Except.error e => Except.error e
      else lookupLoop name rest
    else Except.error "assert len(names) <= 1 failed"

/-- Embedding of `lookup_aws_instances`: the provider filter keeps the
running instances, the loop keeps those whose Name tag equals `name` and
whose key matches `KEY_NAME`. -/
def lookup_aws_instances (name : String) (env : List Instance) :
    Except String (List Instance × List String) :=
  lookupLoop name (env.filter (fun i => i.state_name == "running"))

/-- Provider-side fleet state: the visible instances and a supply of fresh
instance ids. -/
structure EC2State where
  instances : List Instance
  next_id : Nat
  deriving DecidableEq

/-- Embedding of `ec2.create_instances(ImageId=AMI, InstanceType=...,
MinCount=num_tasks, MaxCount=num_tasks, SecurityGroups=[SECURITY_GROUP],
KeyName=KEY_NAME)`: `count` fresh running instances of the given type, not
yet tagged. -/
def create_instances (s : EC2State) (instance_type : String) (count : Nat) :
    List Instance × EC2State :=
  let fresh := (List.range count).map (fun k =>
    { iid := s.next_id + k
      tags := []
      key_name := KEY_NAME
      state_name := "running"
      instance_type := instance_type : Instance })
  (fresh, { instances := s.instances ++ fresh, next_id := s.next_id + count })

/-- Embedding of `ec2.create_tags(Resources=[instance.id],
Tags=[dict(Key="Name", Value=name)])`. -/
def create_tags (s : EC2State) (iid : Nat) (name : String) : EC2State :=
  { s with instances := s.instances.map (fun i =>
      if i.iid = iid then { i with tags := i.tags ++ [⟨"Name", name⟩] }
      else i) }

/-- Provider calls a fleet operation may issue. -/
inductive FleetEvent where
  | createCall (count : Nat) (instance_type : String)
  | tagCall (iid : Nat) (key value : String)
  | terminateCall (iid : Nat)
  | loadCall (iid : Nat)
  | sleepCall (seconds : Nat)
  deriving DecidableEq

/-- Message of the assert that fires when a job with the same name exists
with fewer tasks than requested (the FleetSizeMismatch condition). -/
def fleetSizeMismatch (found requested : Nat) : String :=
  "Found job with same name, but number of tasks " ++ toString found
    ++ " does not match requested " ++ toString requested
    ++ ", kill job manually."

/-- Embedding of `tf_job`: resolve the job name against the provider or
create a fresh fleet.  Returns the resulting instance list (`Except.error`
models an `AssertionError`), the provider state after the call, and the
trace of mutating provider calls issued.  The nonempty branch mirrors
`if instances:` in the source; its assert is `len(instances) >=
num_tasks`. -/
def tf_job (name : String) (num_tasks : Nat) (instance_type : Option String)
    (s : EC2State) :
    Except String (List Instance) × EC2State × List FleetEvent :=
  let itype := instance_type.getD "c5.large"
  match lookup_aws_instances name s.instances with
  | Except.error e => (Except.error e, s, [])
  | Except.ok (instances, _logLines) =>
    if instances.isEmpty then
      let (created, s1) := create_instances s itype num_tasks
      let s2 := created.foldl (fun acc i => create_tags acc i.iid name) s1
      let trace := FleetEvent.createCall num_tasks itype
        :: created.map (fun i => FleetEvent.tagCall i.iid "Name" name)
      if created.length = num_tasks then (Except.ok created, s2, trace)
      else (Except.error "assert len(instances) == num_tasks failed", s2,
        trace)
    else
      if num_tasks ≤ instances.length then (Except.ok instances, s, [])
      else (Except.error (fleetSizeMismatch instances.length num_tasks), s,
        [])

/-! ## Definitions: termination (`terminate_job`) -/

/-- Poll loop of `terminate_job` for one instance: `sts` are the successive
values of `i.state["Name"]` observed after each `i.load()`.  The loop
loads, checks, and otherwise sleeps 5 seconds before loading again; `none`
models the loop still running when the observation stream is exhausted
without a terminated state. -/
def pollUntilTerminated (iid : Nat) : List String → Option (List FleetEvent)
  | [] => none
  | st :: rest =>
    if st = "terminated" then some [FleetEvent.loadCall iid]
    else (pollUntilTerminated iid rest).map
      (fun evs => FleetEvent.loadCall iid :: FleetEvent.sleepCall 5 :: evs)

/-- Sequential composition of the poll loops of `terminate_job` over the
matching instances, in order. -/
def pollAll (observations : Nat → List String) :
    List Instance → Option (List FleetEvent)
  | [] => some []
  | i :: rest =>
    match pollUntilTerminated i.iid (observations i.iid),
        pollAll observations rest with
    | some evs, some more => some (evs ++ more)
    | _, _ => none

/-- Embedding of `terminate_job(name)`: look up the matching instances,
issue a terminate call to each, then poll each one at a fixed 5-second
interval until it is observed terminated.  `observations iid` lists the
states that successive `load()` calls on instance `iid` return.  The outer
`Except` models the lookup assert; the inner `none` models a poll loop
that never returns. -/
def terminate_job (name : String) (s : EC2State)
    (observations : Nat → List String) :
    Except String (Option (List FleetEvent)) :=
  match lookup_aws_instances name s.instances with
  | Except.error e => Except.error e
  | Except.ok (instances, _logLines) =>
    Except.ok ((pollAll observations instances).map
      (fun p =>
        instances.map (fun i => FleetEvent.terminateCall i.iid) ++ p))

/-! ## Definitions: remote shell connector (`_ssh_to_host`) -/

/-- Paramiko client as the script observes it: whether `connect` has
succeeded on it.  A fresh `paramiko.SSHClient()` starts unconnected. -/
structure SSHClient where
  connected : Bool
  deriving DecidableEq

/-- Connect attempts of `_ssh_to_host`, numbered in order. -/
inductive SSHEvent where
  | attempt (k : Nat)
  deriving DecidableEq

/-- While-loop of `_ssh_to_host`: `counter` is the remaining retry budget,
`k` the index of the next connect attempt, and `oracle k` says whether
attempt `k` succeeds or raises.  Counter zero at the loop head means the
guard `counter > 0` is false and the (unconnected) client is returned; a
failure decrements the counter and returns None when it reaches zero. -/
def sshLoop (oracle : Nat → Bool) :
    Nat → Nat → Option SSHClient × List SSHEvent
  | 0, _ => (some { connected := false }, [])
  | c + 1, k =>
    if oracle k then (some { connected := true }, [SSHEvent.attempt k])
    else if c = 0 then (none, [SSHEvent.attempt k])
    else
      let rest := sshLoop oracle c (k + 1)
      (rest.1, SSHEvent.attempt k :: rest.2)

/-- Embedding of `_ssh_to_host`: `retry` is the retry argument (default 10
in the source); a non-positive value makes the while-loop body never
run. -/
def ssh_to_host (retry : Int) (oracle : Nat → Bool) :
    Option SSHClient × List SSHEvent :=
  sshLoop oracle retry.toNat 0

/-- Attempt events `attempt k, attempt (k+1), ...`, `c` of them, back to
back with nothing in between. -/
def attemptsFrom : Nat → Nat → List SSHEvent
  | _, 0 => []
  | k, c + 1 => SSHEvent.attempt k :: attemptsFrom (k + 1) c

/-- Oracle under which every connect attempt raises. -/
def alwaysFailOracle : Nat → Bool := fun _ => false

/-! ## Definitions: task state machine -/

/-- Local tasklog root of the script. -/
def LOCAL_TASKLOGDIR_PREFIX : String := "/temp/tasklogs"

/-- Local state of one `Task`. -/
structure TaskState where
  instanceId : Nat
  jobName : String
  tid : Nat
  initialized : Bool
  local_tasklogdir : String
  last_stdout : Option String
  last_stderr : Option String
  ssh_client : Option SSHClient
  connect_instructions : Option String
  deriving DecidableEq

/-- Embedding of `Task.__init__`. -/
def Task.mk0 (instanceId : Nat) (jobName : String) (tid : Nat) : TaskState :=
  { instanceId := instanceId
    jobName := jobName
    tid := tid
    initialized := false
    local_tasklogdir :=
      LOCAL_TASKLOGDIR_PREFIX ++ "/" ++ jobName ++ "/" ++ toString tid
    last_stdout := none
    last_stderr := none
    ssh_client := none
    connect_instructions := none }

/-- Embedding of `Task.initialize` (spelled `initializeStep` here): asserts
`self.public_ip` is truthy, stores the connector result in `ssh_client`,
and marks the task initialized unless the result was None. -/
def Task.initializeStep (t : TaskState) (public_ip : Option String)
    (sshResult : Option SSHClient) : Except String TaskState :=
  match public_ip with
  | none => Except.error "assert self.public_ip failed"
  | some ip =>
    if ip = "" then Except.error "assert self.public_ip failed"
    else
      let t1 := { t with ssh_client := sshResult }
      match sshResult with
      | none => Except.ok t1
      | some _ => Except.ok { t1 with initialized := true }

/-- Steps `Task.wait_until_ready` takes. -/
inductive TaskEvent where
  | initAttempt
  | sleepStep (seconds : Nat)
  deriving DecidableEq

/-- While-loop of `Task.wait_until_ready` with explicit fuel:
`sshResults n` is the connector result of the n-th initialize call.
`none` models a loop still running when the fuel ends;
`some (Except.error e)` a failing assert inside initialize. -/
def Task.waitLoop (public_ip : Option String)
    (sshResults : Nat → Option SSHClient) :
    Nat → Nat → TaskState →
      Option (Except String (TaskState × List TaskEvent))
  | 0, _, t =>
    if t.initialized then some (Except.ok (t, [])) else none
  | fuel + 1, n, t =>
    if t.initialized then some (Except.ok (t, []))
    else
      match Task.initializeStep t public_ip (sshResults n) with
      | Except.error e => some (Except.error e)
      | Except.ok t1 =>
        if t1.initialized then
          some (Except.ok (t1, [TaskEvent.initAttempt]))
        else
          (Task.waitLoop public_ip sshResults fuel (n + 1) t1).map
            (Except.map (fun r =>
              (r.1, TaskEvent.initAttempt :: TaskEvent.sleepStep 5 :: r.2)))

/-- Embedding of `Task.wait_until_ready`: run the while loop, then set the
constant `connect_instructions`. -/
def Task.wait_until_ready (public_ip : Option String)
    (sshResults : Nat → Option SSHClient) (fuel : Nat) (t : TaskState) :
    Option (Except String (TaskState × List TaskEvent)) :=
  (Task.waitLoop public_ip sshResults fuel 0 t).map
    (Except.map (fun r =>
      ({ r.1 with connect_instructions := some "<todo: add instructions>" },
       r.2)))

/-- Connector-result stream that always reports a failed connection. -/
def noSSHOracle : Nat → Option SSHClient := fun _ => none

/-! ## Definitions: command executor (`_ExecuteCommandAndStreamOutput`) -/

/-- Remote channel as the executor observes it: the lines each stream
yields, and the exit status `recv_exit_status` reports once the streams
are drained. -/
structure Channel where
  stdout_lines : List String
  stderr_lines : List String
  recv_exit_status : Int

/-- Default `ok_exit_status` argument of the executor. -/
def default_ok_exit_status : List Int := [0]

/-- Embedding of `_ExecuteCommandAndStreamOutput`: drains the two streams
to their files when given (the stdout drain writes the command line
first), reads the exit status, and classifies it against
`ok_exit_status`.  Returns the boolean result, the file writes, and the
diagnostic lines printed. -/
def ExecuteCommandAndStreamOutput (ch : Channel) (cmd : String)
    (stdout_file stderr_file : Option String) (print_error : Bool)
    (ok_exit_status : List Int) :
    Bool × List (String × List String) × List String :=
  let writes :=
    (match stdout_file with
     | some f => [(f, cmd :: ch.stdout_lines)]
     | none => []) ++
    (match stderr_file with
     | some f => [(f, ch.stderr_lines)]
     | none => [])
  if ch.recv_exit_status ∈ ok_exit_status then (true, writes, [])
  else (false, writes,
    if print_error then
      ["Command execution failed! Check log. Exit Status("
        ++ toString ch.recv_exit_status ++ "):" ++ cmd]
    else [])

/-! ## Definitions: concrete data used by witnesses -/

/-- Fixed fleet used by concrete witnesses: first of two running instances
named `w` with the expected key. -/
def instW1 : Instance :=
  { iid := 1, tags := [⟨"Name", "w"⟩], key_name := KEY_NAME,
    state_name := "running", instance_type := "c5.large" }

/-- Second witness instance of the job `w`. -/
def instW2 : Instance :=
  { iid := 2, tags := [⟨"Name", "w"⟩], key_name := KEY_NAME,
    state_name := "running", instance_type := "c5.large" }

/-- Witness provider state holding the two `w` instances. -/
def envW : EC2State := { instances := [instW1, instW2], next_id := 10 }

/-- Empty provider state used by witnesses. -/
def envEmpty : EC2State := { instances := [], next_id := 0 }

/-- Instance with the right name but the wrong key, used by the C9
witness. -/
def instBadKey : Instance :=
  { iid := 3, tags := [⟨"Name", "w"⟩], key_name := "other",
    state_name := "running", instance_type := "c5.large" }

/-- Already-initialized task used by the C8 witness. -/
def taskReady : TaskState :=
  { instanceId := 1, jobName := "w", tid := 0, initialized := true,
    local_tasklogdir := "/temp/tasklogs/w/0", last_stdout := none,
    last_stderr := none, ssh_client := some { connected := true },
    connect_instructions := none }

/-- Fresh task used by the C10 witness. -/
def taskFresh : TaskState := Task.mk0 7 "w" 0

/-! ## Theorems: invocation-id encoding (C5, C6) -/

theorem hexVal_hexDigit : ∀ n < 16, hexVal (hexDigit n) = some n := by
  decide

theorem isHexUpper_hexDigit : ∀ n < 16, isHexUpper (hexDigit n) = true := by
  decide

theorem packBytesLE_lt (k n : Nat) : ∀ b ∈ packBytesLE k n, b < 256 := by
  induction k generalizing n with
  | zero => simp [packBytesLE]
  | succ k ih =>
    intro b hb
    rcases List.mem_cons.mp hb with h | h
    · subst h; exact Nat.mod_lt _ (by norm_num)
    · exact ih _ _ h

theorem packBytesLE_length (k n : Nat) : (packBytesLE k n).length = k := by
  induction k generalizing n with
  | zero => rfl
  | succ k ih => simp [packBytesLE, ih]

theorem b16decodeChars_encode (bs : List Nat) (h : ∀ b ∈ bs, b < 256) :
    b16decodeChars (List.flatten (bs.map byteToHex)) = some bs := by
  induction bs with
  | nil => rfl
  | cons b rest ih =>
    have hb : b < 256 := h b (by simp)
    have h1 : hexVal (hexDigit (b / 16)) = some (b / 16) :=
      hexVal_hexDigit _ (by omega)
    have h2 : hexVal (hexDigit (b % 16)) = some (b % 16) :=
      hexVal_hexDigit _ (Nat.mod_lt _ (by norm_num))
    have h3 : b16decodeChars (List.flatten (rest.map byteToHex)) = some rest :=
      ih (fun x hx => h x (List.mem_cons_of_mem _ hx))
    have hb' : 16 * (b / 16) + b % 16 = b := by omega
    have key : b16decodeChars (hexDigit (b / 16) :: hexDigit (b % 16)
        :: (List.map byteToHex rest).flatten) = some (b :: rest) := by
      simp [b16decodeChars, h1, h2, h3, hb']
    simpa [byteToHex] using key

theorem unpackLE_packBytesLE (k n : Nat) :
    unpackLE (packBytesLE k n) = n % 256 ^ k := by
  induction k generalizing n with
  | zero => simp [packBytesLE, unpackLE, Nat.mod_one]
  | succ k ih =>
    have hstep : unpackLE (packBytesLE (k + 1) n)
        = n % 256 + 256 * unpackLE (packBytesLE k (n / 256)) := rfl
    rw [hstep, ih, pow_succ', Nat.mod_mul]

/-- C5: decoding the invocation-id encoding of the bit pattern of a double
timestamp returns that bit pattern exactly, so the float round-trips bit
for bit through `_encode_float` and `_decode_float`. -/
theorem decode_float_encode_float (bits : Nat) (h : bits < 2 ^ 64) :
    decode_float (encode_float bits) = some bits := by
  have hdata : (b16encode (packBytesLE 8 bits)).data
      = List.flatten ((packBytesLE 8 bits).map byteToHex) := rfl
  unfold decode_float encode_float b16decode
  rw [hdata, b16decodeChars_encode _ (packBytesLE_lt 8 bits)]
  have h8 : (256 : Nat) ^ 8 = 2 ^ 64 := by norm_num
  show some (unpackLE (packBytesLE 8 bits)) = some bits
  rw [unpackLE_packBytesLE, h8, Nat.mod_eq_of_lt h]

/-- Witness for C5 at the bit pattern of the double 1.0. -/
theorem decode_float_encode_float_witness :
    (4607182418800017408 : Nat) < 2 ^ 64 ∧
    decode_float (encode_float 4607182418800017408)
      = some 4607182418800017408 :=
  ⟨by norm_num,
   decode_float_encode_float 4607182418800017408 (by norm_num)⟩

theorem packBytesLE_eq_reverse_BE (k n : Nat) :
    packBytesLE k n = (packBytesBE k n).reverse := by
  induction k generalizing n with
  | zero => rfl
  | succ k ih => simp [packBytesLE, packBytesBE, ih]

theorem flatten_byteToHex_length (bs : List Nat) :
    (List.flatten (bs.map byteToHex)).length = 2 * bs.length := by
  induction bs with
  | nil => rfl
  | cons b rest ih => simp [byteToHex, ih]; omega

/-- C6 amended: the invocation id used in the log filenames of `Task.run`
is exactly 16 uppercase hexadecimal characters representing the 8-byte
IEEE-754 double encoding of the timestamp in the native byte order of the
host (little-endian on x86-64), i.e. the reverse of the big-endian byte
order the spec describes. -/
theorem encode_float_shape_native_order (bits : Nat) (d : String) :
    (encode_float bits).length = 16 ∧
    (∀ c ∈ (encode_float bits).data, isHexUpper c = true) ∧
    encode_float bits = b16encode ((packBytesBE 8 bits).reverse) ∧
    (runLogFilenames d bits).1 = d ++ "/" ++ encode_float bits ++ ".stdout" ∧
    (runLogFilenames d bits).2 = d ++ "/" ++ encode_float bits ++ ".stderr" := by
  refine ⟨?_, ?_, ?_, rfl, rfl⟩
  · show (List.flatten ((packBytesLE 8 bits).map byteToHex)).length = 16
    rw [flatten_byteToHex_length, packBytesLE_length]
  · intro c hc
    have hc' : c ∈ List.flatten ((packBytesLE 8 bits).map byteToHex) := hc
    rcases List.mem_flatten.mp hc' with ⟨l, hl, hcl⟩
    rcases List.mem_map.mp hl with ⟨b, hb, rfl⟩
    have hblt : b < 256 := packBytesLE_lt 8 bits b hb
    simp only [byteToHex, List.mem_cons, List.not_mem_nil, or_false] at hcl
    rcases hcl with h | h
    · exact h ▸ isHexUpper_hexDigit _ (by omega)
    · exact h ▸ isHexUpper_hexDigit _ (Nat.mod_lt _ (by norm_num))
  · rw [encode_float, packBytesLE_eq_reverse_BE]

/-- C6 counterexample: at the bit patterns of the doubles 1.0
(0x3FF0000000000000) and 2.0 (0x4000000000000000), the encoder of the
source disagrees with the big-endian encoder the spec describes, and
byte-level filename order reverses creation order (the later timestamp 2.0
sorts before the earlier 1.0). -/
theorem encode_float_not_big_endian :
    encode_float 4607182418800017408 = "000000000000F03F" ∧
    encode_float_spec_be 4607182418800017408 = "3FF0000000000000" ∧
    encode_float 4607182418800017408
      ≠ encode_float_spec_be 4607182418800017408 ∧
    (4607182418800017408 : Nat) < 4611686018427387904 ∧
    filenameLt (encode_float 4611686018427387904)
      (encode_float 4607182418800017408) = true :=
  ⟨by decide, by decide, by decide, by norm_num, by decide⟩

/-! ## Theorems: lookup (C9) -/

theorem lookupLoop_append_skip (name : String) (i : Instance)
    (htags : (nameTagValues i).length ≤ 1)
    (hname : (nameTagValues i).headD "" = name)
    (hkey : i.key_name ≠ KEY_NAME) (l : List Instance) :
    lookupLoop name (l ++ [i])
      = (lookupLoop name l).map
          (fun r => (r.1, r.2 ++ [skipMsg i.key_name])) := by
  induction l with
  | nil =>
    simp only [List.nil_append, lookupLoop, if_pos htags, hname, if_pos rfl,
      if_pos hkey]
    rfl
  | cons j l ih =>
    simp only [List.cons_append, lookupLoop, List.append_eq]
    by_cases h1 : (nameTagValues j).length ≤ 1
    · rw [if_pos h1, if_pos h1]
      by_cases h2 : (nameTagValues j).headD "" = name
      · rw [if_pos h2, if_pos h2]
        by_cases h3 : j.key_name ≠ KEY_NAME
        · rw [if_pos h3, if_pos h3, ih]
          cases hres : lookupLoop name l with
          | ok r => simp [Except.map]
          | error e => simp [Except.map]
        · rw [if_neg h3, if_neg h3, ih]
          cases hres : lookupLoop name l with
          | ok r => simp [Except.map]
          | error e => simp [Except.map]
      · rw [if_neg h2, if_neg h2]
        exact ih
    · rw [if_neg h1, if_neg h1]
      rfl

/-- C9: an instance whose Name tag equals the queried name but whose key
does not match `KEY_NAME` is logged and skipped: appending it to the fleet
leaves the returned instance list unchanged (it is neither returned nor
counted toward the found set) and a successful lookup stays successful,
gaining exactly one skip log line. -/
theorem lookup_skips_mismatched_key (name : String) (env : List Instance)
    (i : Instance) (hrun : i.state_name = "running")
    (htags : (nameTagValues i).length ≤ 1)
    (hname : (nameTagValues i).headD "" = name)
    (hkey : i.key_name ≠ KEY_NAME) :
    lookup_aws_instances name (env ++ [i])
      = (lookup_aws_instances name env).map
          (fun r => (r.1, r.2 ++ [skipMsg i.key_name])) := by
  unfold lookup_aws_instances
  rw [List.filter_append]
  have hfi : List.filter (fun j => j.state_name == "running") [i] = [i] := by
    simp [hrun]
  rw [hfi, lookupLoop_append_skip name i htags hname hkey]

/-- Witness for C9: appending the wrong-key instance to the witness fleet
keeps the result and adds exactly one skip log line. -/
theorem lookup_skips_mismatched_key_witness :
    lookup_aws_instances "w" ([instW1, instW2] ++ [instBadKey])
      = (lookup_aws_instances "w" [instW1, instW2]).map
          (fun r => (r.1, r.2 ++ [skipMsg instBadKey.key_name])) :=
  lookup_skips_mismatched_key "w" [instW1, instW2] instBadKey rfl
    (by decide) rfl (by decide)

/-! ## Theorems: fleet resolution (C1, C2) -/

/-- C1: with at least one matching instance found, `tf_job` reuses the
found fleet as-is and never truncates it: for `M ≤ N` it returns exactly
the `N` found instances, leaves the provider untouched and issues no
create call; for `M > N` it fails with the FleetSizeMismatch assert and
issues no create or terminate call. -/
theorem tf_job_reuse_or_mismatch (name : String) (M : Nat)
    (instance_type : Option String) (s : EC2State)
    (found : List Instance) (logLines : List String)
    (hlk : lookup_aws_instances name s.instances
      = Except.ok (found, logLines))
    (hN : 1 ≤ found.length) :
    (M ≤ found.length →
      tf_job name M instance_type s = (Except.ok found, s, [])) ∧
    (found.length < M →
      tf_job name M instance_type s
        = (Except.error (fleetSizeMismatch found.length M), s, [])) := by
  have hne : found.isEmpty = false := by
    cases found with
    | nil => simp at hN
    | cons a l => rfl
  unfold tf_job
  rw [hlk]
  constructor
  · intro hM
    simp [hne, hM]
  · intro hM
    have : ¬ M ≤ found.length := by omega
    simp [hne, this]

/-- Witness for C1: with two matching instances, requesting one reuses
both with no provider call, and requesting three fails with the
FleetSizeMismatch message. -/
theorem tf_job_reuse_or_mismatch_witness :
    tf_job "w" 1 none envW = (Except.ok [instW1, instW2], envW, []) ∧
    tf_job "w" 3 none envW
      = (Except.error (fleetSizeMismatch 2 3), envW, []) :=
  ⟨(tf_job_reuse_or_mismatch "w" 1 none envW [instW1, instW2] []
      (by rfl) (by decide)).1 (by decide),
   (tf_job_reuse_or_mismatch "w" 3 none envW [instW1, instW2] []
      (by rfl) (by decide)).2 (by decide)⟩

theorem create_tags_mem_tagged (s : EC2State) (iid : Nat) (name : String) :
    ∀ j ∈ (create_tags s iid name).instances, j.iid = iid →
      (⟨"Name", name⟩ : Tag) ∈ j.tags := by
  intro j hj hjid
  rcases List.mem_map.mp hj with ⟨orig, horig, rfl⟩
  by_cases h : orig.iid = iid
  · simp [h]
  · simp [h] at hjid

theorem create_tags_preserves_tagged (s : EC2State) (iid : Nat)
    (name : String) (target : Nat) (tg : Tag)
    (h : ∀ j ∈ s.instances, j.iid = target → tg ∈ j.tags) :
    ∀ j ∈ (create_tags s iid name).instances, j.iid = target →
      tg ∈ j.tags := by
  intro j hj hjid
  rcases List.mem_map.mp hj with ⟨orig, horig, rfl⟩
  by_cases hcase : orig.iid = iid
  · rw [if_pos hcase] at hjid ⊢
    exact List.mem_append_left _ (h orig horig hjid)
  · rw [if_neg hcase] at hjid ⊢
    exact h orig horig hjid

theorem tagFold_preserves_tagged (name : String) (target : Nat) (tg : Tag) :
    ∀ (l : List Instance) (s : EC2State),
      (∀ j ∈ s.instances, j.iid = target → tg ∈ j.tags) →
      ∀ j ∈ (l.foldl (fun acc i => create_tags acc i.iid name) s).instances,
        j.iid = target → tg ∈ j.tags
  | [], _, h => h
  | i :: l, s, h =>
    tagFold_preserves_tagged name target tg l (create_tags s i.iid name)
      (create_tags_preserves_tagged s i.iid name target tg h)

theorem tagFold_tags_all (name : String) :
    ∀ (l : List Instance) (s : EC2State) (i : Instance), i ∈ l →
      ∀ j ∈ (l.foldl (fun acc i => create_tags acc i.iid name) s).instances,
        j.iid = i.iid → (⟨"Name", name⟩ : Tag) ∈ j.tags := by
  intro l
  induction l with
  | nil => intro s i hi; cases hi
  | cons a l ih =>
    intro s i hi j hj hjid
    rcases List.mem_cons.mp hi with rfl | hmem
    · exact tagFold_preserves_tagged name i.iid _ l (create_tags s i.iid name)
        (create_tags_mem_tagged s i.iid name) j hj hjid
    · exact ih (create_tags s a.iid name) i hmem j hj hjid

theorem create_tags_preserves_exists (s : EC2State) (iid : Nat)
    (name : String) (target : Nat)
    (h : ∃ j ∈ s.instances, j.iid = target) :
    ∃ j ∈ (create_tags s iid name).instances, j.iid = target := by
  rcases h with ⟨j, hj, hjid⟩
  refine ⟨if j.iid = iid then { j with tags := j.tags ++ [⟨"Name", name⟩] }
    else j, List.mem_map.mpr ⟨j, hj, rfl⟩, ?_⟩
  by_cases hc : j.iid = iid
  · rw [if_pos hc]
    exact hjid
  · rw [if_neg hc]
    exact hjid

theorem tagFold_preserves_exists (name : String) :
    ∀ (l : List Instance) (s : EC2State) (target : Nat),
      (∃ j ∈ s.instances, j.iid = target) →
      ∃ j ∈ (l.foldl (fun acc i => create_tags acc i.iid name) s).instances,
        j.iid = target
  | [], _, _, h => h
  | i :: l, s, target, h =>
    tagFold_preserves_exists name l (create_tags s i.iid name) target
      (create_tags_preserves_exists s i.iid name target h)

/-- C2: with zero matching instances, `tf_job` issues one create call for
exactly `M` instances of the requested type, tags each created instance
with Name = `name`, and returns all `M` created instances. -/
theorem tf_job_creates_fresh (name : String) (M : Nat) (itype : String)
    (s : EC2State) (logLines : List String)
    (hlk : lookup_aws_instances name s.instances
      = Except.ok ([], logLines)) :
    ∃ created s2,
      tf_job name M (some itype) s
        = (Except.ok created, s2,
           FleetEvent.createCall M itype
             :: created.map (fun i => FleetEvent.tagCall i.iid "Name" name)) ∧
      created.length = M ∧
      (∀ i ∈ created, i.instance_type = itype) ∧
      (∀ i ∈ created, ∃ j ∈ s2.instances,
        j.iid = i.iid ∧ (⟨"Name", name⟩ : Tag) ∈ j.tags) := by
  have hlen : (create_instances s itype M).1.length = M := by
    simp [create_instances]
  refine ⟨(create_instances s itype M).1,
    ((create_instances s itype M).1).foldl
      (fun acc i => create_tags acc i.iid name) (create_instances s itype M).2,
    ?_, hlen, ?_, ?_⟩
  · unfold tf_job
    rw [hlk]
    simp [hlen]
  · intro i hi
    simp only [create_instances, List.mem_map, List.mem_range] at hi
    rcases hi with ⟨k, hk, rfl⟩
    rfl
  · intro i hi
    have hmem1 : i ∈ (create_instances s itype M).2.instances :=
      List.mem_append_right _ hi
    rcases tagFold_preserves_exists name (create_instances s itype M).1
        (create_instances s itype M).2 i.iid ⟨i, hmem1, rfl⟩
      with ⟨j, hj, hjid⟩
    exact ⟨j, hj, hjid,
      tagFold_tags_all name (create_instances s itype M).1
        (create_instances s itype M).2 i hi j hj hjid⟩

/-- Witness for C2 at a fresh name, two requested tasks, and an explicit
instance type, over the empty provider state. -/
theorem tf_job_creates_fresh_witness :
    ∃ created s2,
      tf_job "fresh" 2 (some "t2.micro") envEmpty
        = (Except.ok created, s2,
           FleetEvent.createCall 2 "t2.micro"
             :: created.map (fun i =>
                  FleetEvent.tagCall i.iid "Name" "fresh")) ∧
      created.length = 2 ∧
      (∀ i ∈ created, i.instance_type = "t2.micro") ∧
      (∀ i ∈ created, ∃ j ∈ s2.instances,
        j.iid = i.iid ∧ (⟨"Name", "fresh"⟩ : Tag) ∈ j.tags) :=
  tf_job_creates_fresh "fresh" 2 "t2.micro" envEmpty [] (by rfl)

/-! ## Theorems: termination (C7) -/

theorem pollUntilTerminated_isSome (iid : Nat) (sts : List String) :
    (pollUntilTerminated iid sts).isSome = true ↔ "terminated" ∈ sts := by
  induction sts with
  | nil => simp [pollUntilTerminated]
  | cons st rest ih =>
    by_cases h : st = "terminated"
    · simp [pollUntilTerminated, h]
    · have h' : ¬ ("terminated" = st) := fun he => h he.symm
      simp [pollUntilTerminated, h, ih, List.mem_cons, h']

theorem pollUntilTerminated_events (iid : Nat) (sts : List String)
    (evs : List FleetEvent) (h : pollUntilTerminated iid sts = some evs) :
    ∀ e ∈ evs, e = FleetEvent.loadCall iid ∨ e = FleetEvent.sleepCall 5 := by
  induction sts generalizing evs with
  | nil => simp [pollUntilTerminated] at h
  | cons st rest ih =>
    by_cases hst : st = "terminated"
    · simp only [pollUntilTerminated, if_pos hst, Option.some_inj] at h
      subst h
      intro e he
      rcases List.mem_singleton.mp he with rfl
      exact Or.inl rfl
    · simp only [pollUntilTerminated, if_neg hst, Option.map_eq_some'] at h
      rcases h with ⟨evs0, h0, rfl⟩
      intro e he
      rcases List.mem_cons.mp he with rfl | he1
      · exact Or.inl rfl
      rcases List.mem_cons.mp he1 with rfl | he2
      · exact Or.inr rfl
      exact ih evs0 h0 e he2

theorem pollAll_isSome (observations : Nat → List String)
    (l : List Instance) :
    (pollAll observations l).isSome = true ↔
      ∀ i ∈ l, "terminated" ∈ observations i.iid := by
  induction l with
  | nil => simp [pollAll]
  | cons i rest ih =>
    simp only [pollAll]
    cases h1 : pollUntilTerminated i.iid (observations i.iid) with
    | none =>
      have hnot : ¬ "terminated" ∈ observations i.iid := by
        rw [← pollUntilTerminated_isSome i.iid]
        simp [h1]
      cases h2 : pollAll observations rest <;> simp [hnot]
    | some evs =>
      have hmem : "terminated" ∈ observations i.iid := by
        rw [← pollUntilTerminated_isSome i.iid]
        simp [h1]
      cases h2 : pollAll observations rest with
      | none =>
        have hnall : ¬ ∀ j ∈ rest, "terminated" ∈ observations j.iid := by
          rw [← ih]
          simp [h2]
        simp only [Option.isSome_none, Bool.false_eq_true, false_iff]
        intro hforall
        exact hnall (fun j hj => hforall j (List.mem_cons_of_mem i hj))
      | some more =>
        have hall : ∀ j ∈ rest, "terminated" ∈ observations j.iid := by
          rw [← ih]
          simp [h2]
        simp only [Option.isSome_some, true_iff]
        intro j hj
        rcases List.mem_cons.mp hj with rfl | hj'
        · exact hmem
        · exact hall j hj'

theorem pollAll_events (observations : Nat → List String)
    (l : List Instance) (p : List FleetEvent)
    (h : pollAll observations l = some p) :
    ∀ e ∈ p, (∃ i ∈ l, e = FleetEvent.loadCall i.iid)
      ∨ e = FleetEvent.sleepCall 5 := by
  induction l generalizing p with
  | nil =>
    simp only [pollAll, Option.some_inj] at h
    subst h
    intro e he
    cases he
  | cons i rest ih =>
    simp only [pollAll] at h
    cases h1 : pollUntilTerminated i.iid (observations i.iid) with
    | none => rw [h1] at h; cases h
    | some evs =>
      cases h2 : pollAll observations rest with
      | none => rw [h1, h2] at h; cases h
      | some more =>
        rw [h1, h2] at h
        cases h
        intro e he
        rcases List.mem_append.mp he with hl | hr
        · rcases pollUntilTerminated_events i.iid _ evs h1 e hl with rfl | rfl
          · exact Or.inl ⟨i, List.mem_cons_self i rest, rfl⟩
          · exact Or.inr rfl
        · rcases ih more h2 e hr with ⟨j, hj, rfl⟩ | rfl
          · exact Or.inl ⟨j, List.mem_cons_of_mem i hj, rfl⟩
          · exact Or.inr rfl

/-- C7: `terminate_job` first issues a terminate call to every matching
instance (one each, before any polling), then only polls: it returns
exactly when every matching instance is eventually observed in the
terminated state, the poll section consists solely of load calls on
matching instances and fixed 5-second sleeps, every terminate call in the
trace targets a matching instance, and no create call appears anywhere in
the trace. -/
theorem terminate_job_spec (name : String) (s : EC2State)
    (observations : Nat → List String)
    (matching : List Instance) (logLines : List String)
    (hlk : lookup_aws_instances name s.instances
      = Except.ok (matching, logLines)) :
    ∃ r, terminate_job name s observations = Except.ok r ∧
      ((∃ tr, r = some tr) ↔
        ∀ i ∈ matching, "terminated" ∈ observations i.iid) ∧
      (∀ tr, r = some tr →
        ∃ polls,
          tr = matching.map (fun i => FleetEvent.terminateCall i.iid)
            ++ polls ∧
          (∀ e ∈ polls, (∃ i ∈ matching, e = FleetEvent.loadCall i.iid)
            ∨ e = FleetEvent.sleepCall 5) ∧
          (∀ iid, FleetEvent.terminateCall iid ∈ tr →
            ∃ i ∈ matching, i.iid = iid) ∧
          (∀ n itype, FleetEvent.createCall n itype ∉ tr)) := by
  refine ⟨(pollAll observations matching).map
    (fun p => matching.map (fun i => FleetEvent.terminateCall i.iid) ++ p),
    ?_, ?_, ?_⟩
  · unfold terminate_job
    rw [hlk]
  · cases hp : pollAll observations matching with
    | none =>
      have hnall : ¬ ∀ i ∈ matching, "terminated" ∈ observations i.iid := by
        rw [← pollAll_isSome observations matching]
        simp [hp]
      simp [hnall]
    | some p =>
      have hall : ∀ i ∈ matching, "terminated" ∈ observations i.iid := by
        rw [← pollAll_isSome observations matching]
        simp [hp]
      exact ⟨fun _ => hall, fun _ => ⟨_, rfl⟩⟩
  · intro tr htr
    rcases Option.map_eq_some'.mp htr with ⟨p, hp, rfl⟩
    refine ⟨p, rfl, pollAll_events observations matching p hp, ?_, ?_⟩
    · intro iid hmem
      rcases List.mem_append.mp hmem with hl | hr
      · rcases List.mem_map.mp hl with ⟨i, hi, he⟩
        exact ⟨i, hi, by injection he with h⟩
      · rcases pollAll_events observations matching p hp _ hr
          with ⟨i, _, he⟩ | he <;> cases he
    · intro n itype hmem
      rcases List.mem_append.mp hmem with hl | hr
      · rcases List.mem_map.mp hl with ⟨i, _, he⟩
        cases he
      · rcases pollAll_events observations matching p hp _ hr
          with ⟨i, _, he⟩ | he <;> cases he

/-- Witness for C7: one matching instance whose observation stream reaches
the terminated state at the second load. -/
theorem terminate_job_spec_witness :
    ∃ r, terminate_job "w" { instances := [instW1], next_id := 5 }
        (fun _ => ["shutting-down", "terminated"]) = Except.ok r ∧
      ((∃ tr, r = some tr) ↔
        ∀ i ∈ [instW1],
          "terminated"
            ∈ (fun _ : Nat => ["shutting-down", "terminated"]) i.iid) ∧
      (∀ tr, r = some tr →
        ∃ polls,
          tr = [instW1].map (fun i => FleetEvent.terminateCall i.iid)
            ++ polls ∧
          (∀ e ∈ polls, (∃ i ∈ [instW1], e = FleetEvent.loadCall i.iid)
            ∨ e = FleetEvent.sleepCall 5) ∧
          (∀ iid, FleetEvent.terminateCall iid ∈ tr →
            ∃ i ∈ [instW1], i.iid = iid) ∧
          (∀ n itype, FleetEvent.createCall n itype ∉ tr)) :=
  terminate_job_spec "w" { instances := [instW1], next_id := 5 }
    (fun _ => ["shutting-down", "terminated"]) [instW1] [] (by rfl)

/-! ## Theorems: remote shell connector (C4, C10) -/

theorem attemptsFrom_length : ∀ (k c : Nat), (attemptsFrom k c).length = c
  | _, 0 => rfl
  | k, c + 1 => by
    simp [attemptsFrom, attemptsFrom_length (k + 1) c]

theorem sshLoop_all_fail (oracle : Nat → Bool)
    (hfail : ∀ k, oracle k = false) :
    ∀ (c k : Nat), 1 ≤ c →
      sshLoop oracle c k = (none, attemptsFrom k c) := by
  intro c
  induction c with
  | zero => intro k h; omega
  | succ c ih =>
    intro k _
    by_cases hc : c = 0
    · subst hc
      simp [sshLoop, hfail k, attemptsFrom]
    · have h1 : 1 ≤ c := Nat.one_le_iff_ne_zero.mpr hc
      simp only [sshLoop, hfail k, Bool.false_eq_true, if_false, if_neg hc,
        ih (k + 1) h1, attemptsFrom]

/-- C4: when every connect attempt raises, `_ssh_to_host` with a positive
retry budget makes exactly `retry` consecutive connect attempts with
nothing between them (the trace holds only the attempts — no sleep, no
other call) and then returns None, the ConnectionFailed outcome, instead
of propagating the exception to the caller. -/
theorem ssh_to_host_all_fail (retry : Int) (oracle : Nat → Bool)
    (hr : 1 ≤ retry) (hfail : ∀ k, oracle k = false) :
    ssh_to_host retry oracle = (none, attemptsFrom 0 retry.toNat) ∧
    (attemptsFrom 0 retry.toNat).length = retry.toNat := by
  have h1 : 1 ≤ retry.toNat := by omega
  exact ⟨sshLoop_all_fail oracle hfail retry.toNat 0 h1,
    attemptsFrom_length 0 retry.toNat⟩

/-- Witness for C4 at a retry budget of 2. -/
theorem ssh_to_host_all_fail_witness :
    (1 : Int) ≤ 2 ∧
    ssh_to_host 2 alwaysFailOracle = (none, attemptsFrom 0 (Int.toNat 2)) ∧
    (attemptsFrom 0 (Int.toNat 2)).length = Int.toNat 2 :=
  ⟨by norm_num,
   ssh_to_host_all_fail 2 alwaysFailOracle (by norm_num) (fun _ => rfl)⟩

/-- C10: a non-positive retry budget makes `_ssh_to_host` return a fresh,
never-connected client with not a single connect attempt made, and
`Task.initialize` on that non-None result marks the task initialized even
though no channel was established. -/
theorem ssh_to_host_nonpositive_retry (retry : Int) (oracle : Nat → Bool)
    (hr : retry ≤ 0) (t : TaskState) (ip : String) (hip : ip ≠ "") :
    ssh_to_host retry oracle = (some { connected := false }, []) ∧
    ∃ t', Task.initializeStep t (some ip) (ssh_to_host retry oracle).1
        = Except.ok t' ∧
      t'.initialized = true ∧
      t'.ssh_client = some { connected := false } := by
  have h0 : retry.toNat = 0 := Int.toNat_of_nonpos hr
  have hs : ssh_to_host retry oracle = (some { connected := false }, []) := by
    unfold ssh_to_host
    rw [h0]
    rfl
  refine ⟨hs, ?_⟩
  rw [hs]
  simp only [Task.initializeStep]
  rw [if_neg hip]
  exact ⟨_, rfl, rfl, rfl⟩

/-- Witness for C10 at retry budget 0 on a fresh task. -/
theorem ssh_to_host_nonpositive_retry_witness :
    (0 : Int) ≤ 0 ∧
    ssh_to_host 0 alwaysFailOracle = (some { connected := false }, []) ∧
    ∃ t', Task.initializeStep taskFresh (some "1.2.3.4")
        (ssh_to_host 0 alwaysFailOracle).1 = Except.ok t' ∧
      t'.initialized = true ∧
      t'.ssh_client = some { connected := false } :=
  ⟨le_refl 0,
   ssh_to_host_nonpositive_retry 0 alwaysFailOracle (le_refl 0) taskFresh
     "1.2.3.4" (by decide)⟩

/-! ## Theorems: task readiness (C8) -/

/-- C8: on a task that is already initialized, `wait_until_ready` returns
at once with no initialize attempt and no sleep, regardless of fuel; it
leaves `initialized` and `ssh_client` unchanged (only the constant connect
instructions are written), and calling it again returns the very same
state with again no attempt and no sleep. -/
theorem wait_until_ready_noop (public_ip : Option String)
    (sshResults : Nat → Option SSHClient) (fuel fuel2 : Nat) (t : TaskState)
    (h : t.initialized = true) :
    ∃ t', Task.wait_until_ready public_ip sshResults fuel t
        = some (Except.ok (t', [])) ∧
      t' = { t with connect_instructions := some "<todo: add instructions>" } ∧
      t'.initialized = t.initialized ∧
      t'.ssh_client = t.ssh_client ∧
      Task.wait_until_ready public_ip sshResults fuel2 t'
        = some (Except.ok (t', [])) := by
  have hloop : ∀ f n, Task.waitLoop public_ip sshResults f n t
      = some (Except.ok (t, [])) := by
    intro f n
    cases f <;> simp [Task.waitLoop, h]
  refine ⟨{ t with connect_instructions := some "<todo: add instructions>" },
    ?_, rfl, rfl, rfl, ?_⟩
  · unfold Task.wait_until_ready
    rw [hloop]
    rfl
  · have h2 : ({ t with connect_instructions := some "<todo: add instructions>" } : TaskState).initialized = true := h
    have hloop2 : ∀ f n, Task.waitLoop public_ip sshResults f n
        { t with connect_instructions := some "<todo: add instructions>" }
        = some (Except.ok
            ({ t with connect_instructions := some "<todo: add instructions>" },
             [])) := by
      intro f n
      cases f <;> simp [Task.waitLoop, h2, h]
    unfold Task.wait_until_ready
    rw [hloop2]
    rfl

/-- Witness for C8 on a concrete ready task, with zero fuel on the first
call and some fuel on the second. -/
theorem wait_until_ready_noop_witness :
    ∃ t', Task.wait_until_ready (some "1.2.3.4") noSSHOracle 0 taskReady
        = some (Except.ok (t', [])) ∧
      t' = { taskReady with
        connect_instructions := some "<todo: add instructions>" } ∧
      t'.initialized = taskReady.initialized ∧
      t'.ssh_client = taskReady.ssh_client ∧
      Task.wait_until_ready (some "1.2.3.4") noSSHOracle 3 t'
        = some (Except.ok (t', [])) :=
  wait_until_ready_noop (some "1.2.3.4") noSSHOracle 0 3 taskReady rfl

/-! ## Theorems: command executor (C3) -/

/-- C3: the executor classifies the exit status observed after the streams
are drained: it returns true exactly when the status belongs to
`ok_exit_status` (for the default `[0]`, exactly when the status is 0),
and otherwise returns false — a total function that never raises on a
non-zero exit. -/
theorem execute_exit_status_classification (ch : Channel) (cmd : String)
    (stdout_file stderr_file : Option String) (print_error : Bool)
    (ok_exit_status : List Int) :
    ((ExecuteCommandAndStreamOutput ch cmd stdout_file stderr_file
        print_error ok_exit_status).1 = true
      ↔ ch.recv_exit_status ∈ ok_exit_status) ∧
    ((ExecuteCommandAndStreamOutput ch cmd stdout_file stderr_file
        print_error default_ok_exit_status).1 = true
      ↔ ch.recv_exit_status = 0) := by
  constructor
  · by_cases h : ch.recv_exit_status ∈ ok_exit_status <;>
      simp [ExecuteCommandAndStreamOutput, h]
  · by_cases h : ch.recv_exit_status = 0 <;>
      simp [ExecuteCommandAndStreamOutput, default_ok_exit_status, h]

end Cluster
